import Mathlib

/-!
Verification development for the distributed-booking repository.

The definitions below are a shallow embedding of the Rust sources:
machine bytes are naturals, `Vec<u8>` buffers are `List Nat`,
`Result<T, String>` is `Except String`, and a `Byteable::from_bytes`
implementation (which drains the front of a `&mut Vec<u8>`) becomes a
function `List Nat → Except String (value × leftover bytes)`.
-/

deriving instance DecidableEq for Except

namespace DistBooking

/-! ## Codec primitives (src/shared/src/lib.rs) -/

/-- Embedding of `impl Byteable for u8::from_bytes`: takes one byte off the front. -/
def U8.from_bytes : List Nat → Except String (Nat × List Nat)
  | [] => .error "0 bytes found"
  | b :: rest => .ok (b, rest)

/-- Embedding of `impl Byteable for u8::to_bytes`. -/
def U8.to_bytes (n : Nat) : List Nat := [n]

/-- Embedding of `impl Byteable for u16::from_bytes`: two bytes, native
(little-endian x86) order. -/
def U16.from_bytes : List Nat → Except String (Nat × List Nat)
  | b0 :: b1 :: rest => .ok (b0 + 256 * b1, rest)
  | _ => .error "<2 bytes found"

/-- Embedding of `impl Byteable for u16::to_bytes` (`to_ne_bytes`, little-endian). -/
def U16.to_bytes (n : Nat) : List Nat := [n % 256, n / 256 % 256]

/-- Embedding of `impl Byteable for Uuid::from_bytes`: 16 raw bytes. -/
def Uuid.from_bytes (data : List Nat) : Except String (List Nat × List Nat) :=
  if 16 ≤ data.length then .ok (data.take 16, data.drop 16)
  else .error "Not enough bytes"

/-- Embedding of `impl Byteable for Uuid::to_bytes` (`as_bytes().to_vec()`). -/
def Uuid.to_bytes (u : List Nat) : List Nat := u

/-- Embedding of `impl Byteable for bool::from_bytes`: `data.remove(0) >= 1`. -/
def RBool.from_bytes : List Nat → Except String (Bool × List Nat)
  | [] => .error "0 bytes found"
  | b :: rest => .ok (decide (1 ≤ b), rest)

/-- Embedding of `impl Byteable for bool::to_bytes`. -/
def RBool.to_bytes : Bool → List Nat
  | true => [1]
  | false => [0]

/-- Is `b` a UTF-8 continuation byte (`0x80..=0xBF`)? -/
def isUtf8Cont (b : Nat) : Bool := 128 ≤ b && b ≤ 191

/-- UTF-8 validity of a byte sequence, exactly the check performed by Rust's
`String::from_utf8` (RFC 3629: no overlongs, no surrogates, max U+10FFFF). -/
def utf8Valid : List Nat → Bool
  | [] => true
  | b :: rest =>
    if b ≤ 127 then utf8Valid rest
    else if 194 ≤ b && b ≤ 223 then
      match rest with
      | c1 :: r => isUtf8Cont c1 && utf8Valid r
      | [] => false
    else if b == 224 then
      match rest with
      | c1 :: c2 :: r => (160 ≤ c1 && c1 ≤ 191) && isUtf8Cont c2 && utf8Valid r
      | _ => false
    else if 225 ≤ b && b ≤ 236 then
      match rest with
      | c1 :: c2 :: r => isUtf8Cont c1 && isUtf8Cont c2 && utf8Valid r
      | _ => false
    else if b == 237 then
      match rest with
      | c1 :: c2 :: r => (128 ≤ c1 && c1 ≤ 159) && isUtf8Cont c2 && utf8Valid r
      | _ => false
    else if 238 ≤ b && b ≤ 239 then
      match rest with
      | c1 :: c2 :: r => isUtf8Cont c1 && isUtf8Cont c2 && utf8Valid r
      | _ => false
    else if b == 240 then
      match rest with
      | c1 :: c2 :: c3 :: r => (144 ≤ c1 && c1 ≤ 191) && isUtf8Cont c2 && isUtf8Cont c3 && utf8Valid r
      | _ => false
    else if 241 ≤ b && b ≤ 243 then
      match rest with
      | c1 :: c2 :: c3 :: r => isUtf8Cont c1 && isUtf8Cont c2 && isUtf8Cont c3 && utf8Valid r
      | _ => false
    else if b == 244 then
      match rest with
      | c1 :: c2 :: c3 :: r => (128 ≤ c1 && c1 ≤ 143) && isUtf8Cont c2 && isUtf8Cont c3 && utf8Valid r
      | _ => false
    else false

/-- Embedding of `impl Byteable for String::from_bytes`: u16 byte count, then
that many bytes, validated as UTF-8.  A Rust `String` is modelled as its byte
sequence. -/
def RStr.from_bytes (data : List Nat) : Except String (List Nat × List Nat) :=
  match U16.from_bytes data with
  | .error e => .error e
  | .ok (length, rest) =>
    if length ≤ rest.length then
      if utf8Valid (rest.take length) then .ok (rest.take length, rest.drop length)
      else .error "Unable to parse bytes to string"
    else .error "Not enough bytes"

/-- Embedding of `impl Byteable for String::to_bytes`. -/
def RStr.to_bytes (s : List Nat) : List Nat := U16.to_bytes s.length ++ s

/-! ## Time model (src/shared/src/time.rs) -/

/-- The `Day` enumeration. -/
inductive Day
  | monday
  | tuesday
  | wednesday
  | thursday
  | friday
  | saturday
  | sunday
deriving DecidableEq

/-- Embedding of `Day::to_u8`. -/
def Day.to_u8 : Day → Nat
  | .monday => 0
  | .tuesday => 1
  | .wednesday => 2
  | .thursday => 3
  | .friday => 4
  | .saturday => 5
  | .sunday => 6

/-- Embedding of `Day::from_u8` in src/shared/src/time.rs: ordinals above 6 error. -/
def Day.from_u8 : Nat → Except String Day
  | 0 => .ok .monday
  | 1 => .ok .tuesday
  | 2 => .ok .wednesday
  | 3 => .ok .thursday
  | 4 => .ok .friday
  | 5 => .ok .saturday
  | 6 => .ok .sunday
  | _ => .error "Can only be between 0-6"

/-- Embedding of `impl Byteable for Day::from_bytes`. -/
def Day.from_bytes (data : List Nat) : Except String (Day × List Nat) :=
  match U8.from_bytes data with
  | .error e => .error e
  | .ok (val, rest) =>
    match Day.from_u8 val with
    | .error e => .error e
    | .ok d => .ok (d, rest)

/-- Embedding of `impl Byteable for Day::to_bytes`. -/
def Day.to_bytes (d : Day) : List Nat := U8.to_bytes d.to_u8

/-- The successor day used by the positive branch of `Time::offset`. -/
def Day.next : Day → Day
  | .monday => .tuesday
  | .tuesday => .wednesday
  | .wednesday => .thursday
  | .thursday => .friday
  | .friday => .saturday
  | .saturday => .sunday
  | .sunday => .monday

/-- The predecessor day used by the negative branch of `Time::offset`. -/
def Day.prev : Day → Day
  | .monday => .sunday
  | .tuesday => .monday
  | .wednesday => .tuesday
  | .thursday => .wednesday
  | .friday => .thursday
  | .saturday => .friday
  | .sunday => .saturday

/-- `for _ in 0..n { day = day.next }`. -/
def Day.nextTimes : Day → Nat → Day
  | d, 0 => d
  | d, n + 1 => Day.nextTimes d.next n

/-- `for _ in 0..n { day = day.prev }`. -/
def Day.prevTimes : Day → Nat → Day
  | d, 0 => d
  | d, n + 1 => Day.prevTimes d.prev n

/-- Embedding of `Hour::new` (validates `hour < 24`). -/
def Hour.new (hour : Nat) : Except String Nat :=
  if 24 ≤ hour then .error "Got an invalid hour value" else .ok hour

/-- Embedding of `impl Byteable for Hour::from_bytes`.  NOTE: the source
performs no range validation here (`Ok(Self(val))` on any byte). -/
def Hour.from_bytes (data : List Nat) : Except String (Nat × List Nat) :=
  U8.from_bytes data

/-- Embedding of `impl Byteable for Hour::to_bytes`. -/
def Hour.to_bytes (h : Nat) : List Nat := U8.to_bytes h

/-- Embedding of `Minute::new` (validates `min < 60`). -/
def Minute.new (min : Nat) : Except String Nat :=
  if 60 ≤ min then .error "Got an invalid minute value" else .ok min

/-- Embedding of `impl Byteable for Minute::from_bytes`.  NOTE: the source
performs no range validation here (`Ok(Self(val))` on any byte). -/
def Minute.from_bytes (data : List Nat) : Except String (Nat × List Nat) :=
  U8.from_bytes data

/-- Embedding of `impl Byteable for Minute::to_bytes`. -/
def Minute.to_bytes (m : Nat) : List Nat := U8.to_bytes m

/-- The `Time` struct: `day`, `hour`, `minute` (the `Hour`/`Minute` newtypes
are represented by their underlying `u8` value). -/
structure Time where
  day : Day
  hour : Nat
  minute : Nat
deriving DecidableEq

/-- Embedding of `Time::offset` from src/shared/src/time.rs, including the
`checked_sub(1).unwrap_or(23)` on the borrow from the hour field. -/
def Time.offset (t : Time) (hours minutes : Nat) (negative : Bool) : Time :=
  if negative then
    let borrowed :=
      if t.minute < minutes then
        (t.minute + 60 - minutes, if t.hour = 0 then 23 else t.hour - 1)
      else
        (t.minute - minutes, t.hour)
    let newMinute := borrowed.1
    let afterMinuteHour := borrowed.2
    let subtracted :=
      if afterMinuteHour < hours then (afterMinuteHour + 24 - hours, 1)
      else (afterMinuteHour - hours, 0)
    { day := Day.prevTimes t.day subtracted.2, hour := subtracted.1, minute := newMinute }
  else
    let m1 := t.minute + minutes
    let carried := if 60 ≤ m1 then (m1 % 60, t.hour + 1) else (m1, t.hour)
    let newHour := carried.2 + hours
    let daysToAdd := newHour / 24
    { day := Day.nextTimes t.day daysToAdd, hour := newHour % 24, minute := carried.1 }

/-- Total minutes-of-week of a `Time`, the measure used by the specification
to describe the offset operation. -/
def timeMinutes (t : Time) : Nat := t.day.to_u8 * 1440 + t.hour * 60 + t.minute

/-- Embedding of the derived `impl Byteable for Time::from_bytes`
(fields in declaration order: day, hour, minute). -/
def Time.from_bytes (data : List Nat) : Except String (Time × List Nat) :=
  match Day.from_bytes data with
  | .error e => .error e
  | .ok (day, r1) =>
    match Hour.from_bytes r1 with
    | .error e => .error e
    | .ok (hour, r2) =>
      match Minute.from_bytes r2 with
      | .error e => .error e
      | .ok (minute, r3) => .ok (⟨day, hour, minute⟩, r3)

/-- Embedding of the derived `impl Byteable for Time::to_bytes`. -/
def Time.to_bytes (t : Time) : List Nat :=
  Day.to_bytes t.day ++ Hour.to_bytes t.hour ++ Minute.to_bytes t.minute

/-! ## Requests (src/shared/src/requests.rs) -/

/-- `AvailabilityRequest` (`facility_name: String, days: Vec<Day>`). -/
structure AvailabilityRequest where
  facility_name : List Nat
  days : List Day
deriving DecidableEq

/-- `BookRequest`. -/
structure BookRequest where
  facility_name : List Nat
  start_time : Time
  end_time : Time
deriving DecidableEq

/-- `OffsetBookingRequest`. -/
structure OffsetBookingRequest where
  booking_id : List Nat
  offset_hours : Nat
  offset_min : Nat
  negative : Bool
deriving DecidableEq

/-- `CancelBookingRequest`. -/
structure CancelBookingRequest where
  booking_id : List Nat
deriving DecidableEq

/-- `ExtendBookingRequest`. -/
structure ExtendBookingRequest where
  booking_id : List Nat
  extend_hours : Nat
  extend_min : Nat
deriving DecidableEq

/-- `MonitorFacilityRequest` (`facility_name: String, seconds_to_monitor: u8`). -/
structure MonitorFacilityRequest where
  facility_name : List Nat
  seconds_to_monitor : Nat
deriving DecidableEq

/-- The item-parsing loop of `impl Byteable for Vec<T>::from_bytes`
instantiated at `T = Day` (each `Day` parse consumes exactly one byte,
so the loop walks the payload byte by byte). -/
def Day.parse_all : List Nat → Except String (List Day)
  | [] => .ok []
  | b :: rest =>
    match Day.from_u8 b with
    | .error e => .error e
    | .ok d =>
      match Day.parse_all rest with
      | .error e => .error e
      | .ok ds => .ok (d :: ds)

/-- `impl Byteable for Vec<T>::from_bytes` at `T = Day`: u16 payload byte
count, then parse items until the payload is exhausted. -/
def VecDay.from_bytes (data : List Nat) : Except String (List Day × List Nat) :=
  match U16.from_bytes data with
  | .error e => .error e
  | .ok (length, rest) =>
    if length ≤ rest.length then
      match Day.parse_all (rest.take length) with
      | .error e => .error e
      | .ok ds => .ok (ds, rest.drop length)
    else .error "Not enough bytes"

/-- `impl Byteable for Vec<T>::to_bytes` at `T = Day`: u16 byte count of the
flat-mapped payload, then the payload. -/
def VecDay.to_bytes (ds : List Day) : List Nat :=
  U16.to_bytes (ds.flatMap Day.to_bytes).length ++ ds.flatMap Day.to_bytes

/-- The item-parsing loop of `impl Byteable for Vec<T>::from_bytes` at
`T = u8` (each parse consumes one byte and never fails on nonempty input). -/
def U8.parse_all : List Nat → Except String (List Nat)
  | [] => .ok []
  | b :: rest =>
    match U8.parse_all rest with
    | .error e => .error e
    | .ok bs => .ok (b :: bs)

/-- `impl Byteable for Vec<T>::from_bytes` at `T = u8`. -/
def VecU8.from_bytes (data : List Nat) : Except String (List Nat × List Nat) :=
  match U16.from_bytes data with
  | .error e => .error e
  | .ok (length, rest) =>
    if length ≤ rest.length then
      match U8.parse_all (rest.take length) with
      | .error e => .error e
      | .ok bs => .ok (bs, rest.drop length)
    else .error "Not enough bytes"

/-- `impl Byteable for Vec<T>::to_bytes` at `T = u8` (the flat-mapped payload
is the byte list itself). -/
def VecU8.to_bytes (bs : List Nat) : List Nat :=
  U16.to_bytes bs.length ++ bs

/-- The `RequestType` tagged union. -/
inductive RequestType
  | availability (request : AvailabilityRequest)
  | book (request : BookRequest)
  | offset (request : OffsetBookingRequest)
  | monitor (request : MonitorFacilityRequest)
  | cancel (request : CancelBookingRequest)
  | extend (request : ExtendBookingRequest)
deriving DecidableEq

/-- Derived `from_bytes` for `AvailabilityRequest`. -/
def AvailabilityRequest.from_bytes (data : List Nat) :
    Except String (AvailabilityRequest × List Nat) :=
  match RStr.from_bytes data with
  | .error e => .error e
  | .ok (facility_name, r1) =>
    match VecDay.from_bytes r1 with
    | .error e => .error e
    | .ok (days, r2) => .ok (⟨facility_name, days⟩, r2)

/-- Derived `to_bytes` for `AvailabilityRequest`. -/
def AvailabilityRequest.to_bytes (r : AvailabilityRequest) : List Nat :=
  RStr.to_bytes r.facility_name ++ VecDay.to_bytes r.days

/-- Derived `from_bytes` for `BookRequest`. -/
def BookRequest.from_bytes (data : List Nat) :
    Except String (BookRequest × List Nat) :=
  match RStr.from_bytes data with
  | .error e => .error e
  | .ok (facility_name, r1) =>
    match Time.from_bytes r1 with
    | .error e => .error e
    | .ok (start_time, r2) =>
      match Time.from_bytes r2 with
      | .error e => .error e
      | .ok (end_time, r3) => .ok (⟨facility_name, start_time, end_time⟩, r3)

/-- Derived `to_bytes` for `BookRequest`. -/
def BookRequest.to_bytes (r : BookRequest) : List Nat :=
  RStr.to_bytes r.facility_name ++ Time.to_bytes r.start_time ++ Time.to_bytes r.end_time

/-- Derived `from_bytes` for `OffsetBookingRequest`. -/
def OffsetBookingRequest.from_bytes (data : List Nat) :
    Except String (OffsetBookingRequest × List Nat) :=
  match Uuid.from_bytes data with
  | .error e => .error e
  | .ok (booking_id, r1) =>
    match Hour.from_bytes r1 with
    | .error e => .error e
    | .ok (offset_hours, r2) =>
      match Minute.from_bytes r2 with
      | .error e => .error e
      | .ok (offset_min, r3) =>
        match RBool.from_bytes r3 with
        | .error e => .error e
        | .ok (negative, r4) => .ok (⟨booking_id, offset_hours, offset_min, negative⟩, r4)

/-- Derived `to_bytes` for `OffsetBookingRequest`. -/
def OffsetBookingRequest.to_bytes (r : OffsetBookingRequest) : List Nat :=
  Uuid.to_bytes r.booking_id ++ Hour.to_bytes r.offset_hours
    ++ Minute.to_bytes r.offset_min ++ RBool.to_bytes r.negative

/-- Derived `from_bytes` for `CancelBookingRequest`. -/
def CancelBookingRequest.from_bytes (data : List Nat) :
    Except String (CancelBookingRequest × List Nat) :=
  match Uuid.from_bytes data with
  | .error e => .error e
  | .ok (booking_id, r1) => .ok (⟨booking_id⟩, r1)

/-- Derived `to_bytes` for `CancelBookingRequest`. -/
def CancelBookingRequest.to_bytes (r : CancelBookingRequest) : List Nat :=
  Uuid.to_bytes r.booking_id

/-- Derived `from_bytes` for `ExtendBookingRequest`. -/
def ExtendBookingRequest.from_bytes (data : List Nat) :
    Except String (ExtendBookingRequest × List Nat) :=
  match Uuid.from_bytes data with
  | .error e => .error e
  | .ok (booking_id, r1) =>
    match Hour.from_bytes r1 with
    | .error e => .error e
    | .ok (extend_hours, r2) =>
      match Minute.from_bytes r2 with
      | .error e => .error e
      | .ok (extend_min, r3) => .ok (⟨booking_id, extend_hours, extend_min⟩, r3)

/-- Derived `to_bytes` for `ExtendBookingRequest`. -/
def ExtendBookingRequest.to_bytes (r : ExtendBookingRequest) : List Nat :=
  Uuid.to_bytes r.booking_id ++ Hour.to_bytes r.extend_hours ++ Minute.to_bytes r.extend_min

/-- Derived `from_bytes` for `MonitorFacilityRequest`. -/
def MonitorFacilityRequest.from_bytes (data : List Nat) :
    Except String (MonitorFacilityRequest × List Nat) :=
  match RStr.from_bytes data with
  | .error e => .error e
  | .ok (facility_name, r1) =>
    match U8.from_bytes r1 with
    | .error e => .error e
    | .ok (seconds_to_monitor, r2) => .ok (⟨facility_name, seconds_to_monitor⟩, r2)

/-- Derived `to_bytes` for `MonitorFacilityRequest`. -/
def MonitorFacilityRequest.to_bytes (r : MonitorFacilityRequest) : List Nat :=
  RStr.to_bytes r.facility_name ++ U8.to_bytes r.seconds_to_monitor

/-- Embedding of `impl Byteable for RequestType::from_bytes`: u8 discriminant
0..5, then the variant payload; unknown discriminants error. -/
def RequestType.from_bytes (data : List Nat) :
    Except String (RequestType × List Nat) :=
  match U8.from_bytes data with
  | .error e => .error e
  | .ok (discriminant, rest) =>
    match discriminant with
    | 0 => (AvailabilityRequest.from_bytes rest).map (fun p => (.availability p.1, p.2))
    | 1 => (BookRequest.from_bytes rest).map (fun p => (.book p.1, p.2))
    | 2 => (OffsetBookingRequest.from_bytes rest).map (fun p => (.offset p.1, p.2))
    | 3 => (MonitorFacilityRequest.from_bytes rest).map (fun p => (.monitor p.1, p.2))
    | 4 => (CancelBookingRequest.from_bytes rest).map (fun p => (.cancel p.1, p.2))
    | 5 => (ExtendBookingRequest.from_bytes rest).map (fun p => (.extend p.1, p.2))
    | _ => .error "Unsupported request type discriminant"

/-- Embedding of `impl Byteable for RequestType::to_bytes`
(`request_bytes.insert(0, discriminant)`). -/
def RequestType.to_bytes : RequestType → List Nat
  | .availability r => 0 :: r.to_bytes
  | .book r => 1 :: r.to_bytes
  | .offset r => 2 :: r.to_bytes
  | .monitor r => 3 :: r.to_bytes
  | .cancel r => 4 :: r.to_bytes
  | .extend r => 5 :: r.to_bytes

/-- `RawRequest` (`request_id: Uuid, request_type: RequestType`). -/
structure RawRequest where
  request_id : List Nat
  request_type : RequestType
deriving DecidableEq

/-- Derived `from_bytes` for `RawRequest`. -/
def RawRequest.from_bytes (data : List Nat) :
    Except String (RawRequest × List Nat) :=
  match Uuid.from_bytes data with
  | .error e => .error e
  | .ok (request_id, r1) =>
    match RequestType.from_bytes r1 with
    | .error e => .error e
    | .ok (request_type, r2) => .ok (⟨request_id, request_type⟩, r2)

/-- Derived `to_bytes` for `RawRequest`. -/
def RawRequest.to_bytes (r : RawRequest) : List Nat :=
  Uuid.to_bytes r.request_id ++ RequestType.to_bytes r.request_type

/-! ## Responses (src/shared/src/responses.rs) -/

/-- `RawResponse` exactly as declared in src/shared/src/responses.rs:
`request_id: Uuid, is_error: u8, length: u16, data: Vec<u8>`. -/
structure RawResponse where
  request_id : List Nat
  is_error : Nat
  length : Nat
  data : List Nat
deriving DecidableEq

/-- Derived `from_bytes` for `RawResponse` (fields in declaration order). -/
def RawResponse.from_bytes (data : List Nat) :
    Except String (RawResponse × List Nat) :=
  match Uuid.from_bytes data with
  | .error e => .error e
  | .ok (request_id, r1) =>
    match U8.from_bytes r1 with
    | .error e => .error e
    | .ok (is_error, r2) =>
      match U16.from_bytes r2 with
      | .error e => .error e
      | .ok (length, r3) =>
        match VecU8.from_bytes r3 with
        | .error e => .error e
        | .ok (payload, r4) => .ok (⟨request_id, is_error, length, payload⟩, r4)

/-- Derived `to_bytes` for `RawResponse`: note that the `length` field is
emitted AND `Vec<u8>::to_bytes` prefixes its own u16 byte count. -/
def RawResponse.to_bytes (r : RawResponse) : List Nat :=
  Uuid.to_bytes r.request_id ++ U8.to_bytes r.is_error
    ++ U16.to_bytes r.length ++ VecU8.to_bytes r.data

/-- Embedding of `RawResponse::from_string` (the `as u16` cast on the length). -/
def RawResponse.from_string (request_id : List Nat) (is_error : Nat) (s : List Nat) :
    RawResponse :=
  ⟨request_id, is_error, s.length % 65536, s⟩

/-! ## Well-formedness of wire values -/

/-- A Rust `Uuid` value: 16 bytes. -/
def uuidWf (u : List Nat) : Bool :=
  u.length == 16 && u.all (fun b => decide (b < 256))

/-- A Rust `String` transmissible in this protocol: valid UTF-8 whose byte
count fits the u16 length prefix. -/
def strWf (s : List Nat) : Bool :=
  utf8Valid s && decide (s.length < 65536)

/-- Valid field values of a `Time` (`Hour` in 0..=23, `Minute` in 0..=59). -/
def Time.wf (t : Time) : Bool :=
  decide (t.hour < 24) && decide (t.minute < 60)

/-- Valid field values for each request variant. -/
def RequestType.wf : RequestType → Bool
  | .availability r => strWf r.facility_name && decide (r.days.length < 65536)
  | .book r => strWf r.facility_name && r.start_time.wf && r.end_time.wf
  | .offset r => uuidWf r.booking_id && decide (r.offset_hours < 24) && decide (r.offset_min < 60)
  | .monitor r => strWf r.facility_name && decide (r.seconds_to_monitor < 256)
  | .cancel r => uuidWf r.booking_id
  | .extend r => uuidWf r.booking_id && decide (r.extend_hours < 24) && decide (r.extend_min < 60)

/-- Valid field values of a `RawRequest`. -/
def RawRequest.wf (r : RawRequest) : Bool :=
  uuidWf r.request_id && r.request_type.wf

/-- Valid field values of a `RawResponse` (per src/shared/src/responses.rs). -/
def RawResponse.wf (r : RawResponse) : Bool :=
  uuidWf r.request_id && decide (r.is_error < 256) && decide (r.length < 65536)
    && decide (r.data.length < 65536) && r.data.all (fun b => decide (b < 256))

/-! ## Round-trip lemmas for the codec -/

theorem u8_rt (n : Nat) (rest : List Nat) :
    U8.from_bytes (U8.to_bytes n ++ rest) = .ok (n, rest) := rfl

theorem u16_rt (n : Nat) (h : n < 65536) (rest : List Nat) :
    U16.from_bytes (U16.to_bytes n ++ rest) = .ok (n, rest) := by
  simp only [U16.from_bytes, U16.to_bytes, List.cons_append, List.nil_append]
  congr 1
  simp only [Prod.mk.injEq, and_true]
  omega

theorem rbool_rt (b : Bool) (rest : List Nat) :
    RBool.from_bytes (RBool.to_bytes b ++ rest) = .ok (b, rest) := by
  cases b <;> rfl

theorem uuid_rt (u : List Nat) (h : u.length = 16) (rest : List Nat) :
    Uuid.from_bytes (Uuid.to_bytes u ++ rest) = .ok (u, rest) := by
  have hlen : 16 ≤ (u ++ rest).length := by
    rw [List.length_append]; omega
  have htake : (u ++ rest).take 16 = u := by
    rw [← h]; exact List.take_left u rest
  have hdrop : (u ++ rest).drop 16 = rest := by
    rw [← h]; exact List.drop_left u rest
  rw [Uuid.to_bytes, Uuid.from_bytes, if_pos hlen, htake, hdrop]

theorem rstr_rt (s : List Nat) (h : strWf s = true) (rest : List Nat) :
    RStr.from_bytes (RStr.to_bytes s ++ rest) = .ok (s, rest) := by
  have hv : utf8Valid s = true := by
    simp only [strWf, Bool.and_eq_true] at h; exact h.1
  have hl : s.length < 65536 := by
    simp only [strWf, Bool.and_eq_true, decide_eq_true_eq] at h; exact h.2
  have htake : (s ++ rest).take s.length = s := List.take_left s rest
  have hdrop : (s ++ rest).drop s.length = rest := List.drop_left s rest
  have hle : s.length ≤ (s ++ rest).length := by
    rw [List.length_append]; omega
  simp only [RStr.to_bytes, List.append_assoc, RStr.from_bytes, u16_rt s.length hl,
    if_pos hle, htake, hdrop, hv, if_true]

theorem day_rt (d : Day) (rest : List Nat) :
    Day.from_bytes (Day.to_bytes d ++ rest) = .ok (d, rest) := by
  cases d <;> rfl

theorem Day.payload_eq (ds : List Day) :
    ds.flatMap Day.to_bytes = ds.map Day.to_u8 := by
  induction ds with
  | nil => rfl
  | cons d ds ih => simp [Day.to_bytes, U8.to_bytes, ih]

theorem day_parse_all_rt (ds : List Day) :
    Day.parse_all (ds.map Day.to_u8) = .ok ds := by
  induction ds with
  | nil => rfl
  | cons d ds ih =>
    cases d <;> simp [Day.parse_all, Day.from_u8, Day.to_u8, List.map_cons, ih]

theorem Day.payload_length (ds : List Day) :
    (ds.flatMap Day.to_bytes).length = ds.length := by
  rw [Day.payload_eq]; simp

theorem vecday_rt (ds : List Day) (h : ds.length < 65536) (rest : List Nat) :
    VecDay.from_bytes (VecDay.to_bytes ds ++ rest) = .ok (ds, rest) := by
  have hpl : (ds.map Day.to_u8).length < 65536 := by
    rw [List.length_map]; exact h
  have htake := List.take_left (ds.map Day.to_u8) rest
  have hdrop := List.drop_left (ds.map Day.to_u8) rest
  have hle : (ds.map Day.to_u8).length ≤ (ds.map Day.to_u8 ++ rest).length := by
    rw [List.length_append]; omega
  simp only [VecDay.to_bytes, Day.payload_eq, List.append_assoc, VecDay.from_bytes,
    u16_rt _ hpl, if_pos hle, htake, hdrop, day_parse_all_rt]

theorem u8_parse_all_rt (bs : List Nat) : U8.parse_all bs = .ok bs := by
  induction bs with
  | nil => rfl
  | cons b bs ih => simp [U8.parse_all, ih]

theorem vecu8_rt (bs : List Nat) (h : bs.length < 65536) (rest : List Nat) :
    VecU8.from_bytes (VecU8.to_bytes bs ++ rest) = .ok (bs, rest) := by
  have htake := List.take_left bs rest
  have hdrop := List.drop_left bs rest
  have hle : bs.length ≤ (bs ++ rest).length := by
    rw [List.length_append]; omega
  simp only [VecU8.to_bytes, List.append_assoc, VecU8.from_bytes, u16_rt _ h,
    if_pos hle, htake, hdrop, u8_parse_all_rt]

theorem hour_rt (h : Nat) (rest : List Nat) :
    Hour.from_bytes (Hour.to_bytes h ++ rest) = .ok (h, rest) := rfl

theorem minute_rt (m : Nat) (rest : List Nat) :
    Minute.from_bytes (Minute.to_bytes m ++ rest) = .ok (m, rest) := rfl

theorem time_rt (t : Time) (rest : List Nat) :
    Time.from_bytes (Time.to_bytes t ++ rest) = .ok (t, rest) := by
  simp only [Time.to_bytes, List.append_assoc, Time.from_bytes, day_rt, hour_rt, minute_rt]

theorem availability_request_rt (r : AvailabilityRequest)
    (h : RequestType.wf (.availability r) = true) (rest : List Nat) :
    AvailabilityRequest.from_bytes (AvailabilityRequest.to_bytes r ++ rest) = .ok (r, rest) := by
  simp only [RequestType.wf, Bool.and_eq_true, decide_eq_true_eq] at h
  simp only [AvailabilityRequest.to_bytes, List.append_assoc,
    AvailabilityRequest.from_bytes, rstr_rt _ h.1, vecday_rt _ h.2]

theorem book_request_rt (r : BookRequest)
    (h : RequestType.wf (.book r) = true) (rest : List Nat) :
    BookRequest.from_bytes (BookRequest.to_bytes r ++ rest) = .ok (r, rest) := by
  simp only [RequestType.wf, Bool.and_eq_true] at h
  simp only [BookRequest.to_bytes, List.append_assoc, BookRequest.from_bytes,
    rstr_rt _ h.1.1, time_rt]

theorem offset_request_rt (r : OffsetBookingRequest)
    (h : RequestType.wf (.offset r) = true) (rest : List Nat) :
    OffsetBookingRequest.from_bytes (OffsetBookingRequest.to_bytes r ++ rest) = .ok (r, rest) := by
  simp only [RequestType.wf, uuidWf, Bool.and_eq_true, beq_iff_eq] at h
  simp only [OffsetBookingRequest.to_bytes, List.append_assoc,
    OffsetBookingRequest.from_bytes, uuid_rt _ h.1.1.1, hour_rt, minute_rt, rbool_rt]

theorem monitor_request_rt (r : MonitorFacilityRequest)
    (h : RequestType.wf (.monitor r) = true) (rest : List Nat) :
    MonitorFacilityRequest.from_bytes (MonitorFacilityRequest.to_bytes r ++ rest) = .ok (r, rest) := by
  simp only [RequestType.wf, Bool.and_eq_true] at h
  simp only [MonitorFacilityRequest.to_bytes, List.append_assoc,
    MonitorFacilityRequest.from_bytes, rstr_rt _ h.1, u8_rt]

theorem cancel_request_rt (r : CancelBookingRequest)
    (h : RequestType.wf (.cancel r) = true) (rest : List Nat) :
    CancelBookingRequest.from_bytes (CancelBookingRequest.to_bytes r ++ rest) = .ok (r, rest) := by
  simp only [RequestType.wf, uuidWf, Bool.and_eq_true, beq_iff_eq] at h
  simp only [CancelBookingRequest.to_bytes, CancelBookingRequest.from_bytes,
    uuid_rt _ h.1]

theorem extend_request_rt (r : ExtendBookingRequest)
    (h : RequestType.wf (.extend r) = true) (rest : List Nat) :
    ExtendBookingRequest.from_bytes (ExtendBookingRequest.to_bytes r ++ rest) = .ok (r, rest) := by
  simp only [RequestType.wf, uuidWf, Bool.and_eq_true, beq_iff_eq] at h
  simp only [ExtendBookingRequest.to_bytes, List.append_assoc,
    ExtendBookingRequest.from_bytes, uuid_rt _ h.1.1.1, hour_rt, minute_rt]

theorem request_type_rt (t : RequestType) (h : t.wf = true) (rest : List Nat) :
    RequestType.from_bytes (RequestType.to_bytes t ++ rest) = .ok (t, rest) := by
  cases t with
  | availability r =>
    simp [RequestType.to_bytes, RequestType.from_bytes, U8.from_bytes,
      availability_request_rt r h rest, Except.map]
  | book r =>
    simp [RequestType.to_bytes, RequestType.from_bytes, U8.from_bytes,
      book_request_rt r h rest, Except.map]
  | offset r =>
    simp [RequestType.to_bytes, RequestType.from_bytes, U8.from_bytes,
      offset_request_rt r h rest, Except.map]
  | monitor r =>
    simp [RequestType.to_bytes, RequestType.from_bytes, U8.from_bytes,
      monitor_request_rt r h rest, Except.map]
  | cancel r =>
    simp [RequestType.to_bytes, RequestType.from_bytes, U8.from_bytes,
      cancel_request_rt r h rest, Except.map]
  | extend r =>
    simp [RequestType.to_bytes, RequestType.from_bytes, U8.from_bytes,
      extend_request_rt r h rest, Except.map]

theorem raw_request_rt (r : RawRequest) (h : r.wf = true) :
    RawRequest.from_bytes (RawRequest.to_bytes r) = .ok (r, []) := by
  simp only [RawRequest.wf, uuidWf, Bool.and_eq_true, beq_iff_eq] at h
  have htb : RawRequest.to_bytes r
      = Uuid.to_bytes r.request_id ++ (RequestType.to_bytes r.request_type ++ []) := by
    simp [RawRequest.to_bytes]
  rw [htb]
  simp only [RawRequest.from_bytes, uuid_rt _ h.1.1, request_type_rt _ h.2]

theorem raw_response_rt (r : RawResponse) (h : r.wf = true) :
    RawResponse.from_bytes (RawResponse.to_bytes r) = .ok (r, []) := by
  simp only [RawResponse.wf, uuidWf, Bool.and_eq_true, beq_iff_eq, decide_eq_true_eq] at h
  have htb : RawResponse.to_bytes r
      = Uuid.to_bytes r.request_id ++ (U8.to_bytes r.is_error
          ++ (U16.to_bytes r.length ++ (VecU8.to_bytes r.data ++ []))) := by
    simp [RawResponse.to_bytes]
  rw [htb]
  simp only [RawResponse.from_bytes, uuid_rt _ h.1.1.1.1.1, u8_rt,
    u16_rt _ h.1.1.2, vecu8_rt _ h.1.2]

/-! ## Facility / Booking store (src/server/src/facilities.rs)

facilities.rs declares its own `Day`, `Hour` and `Minute` types, structurally
identical to the ones in src/shared/src/time.rs (the handler passes values
between the two); the embedding reuses the single `Day` inductive above and
plain naturals for the `Hour`/`Minute` newtypes. -/

/-- The `BookingTime` struct of facilities.rs. -/
structure BookingTime where
  day : Day
  hour : Nat
  minute : Nat
deriving DecidableEq

/-- The derived lexicographic `Ord` on `BookingTime` (field order
day, hour, minute; `Day` ordered by declaration ordinal): `a <= b`. -/
def BookingTime.leb (a b : BookingTime) : Bool :=
  if a.day.to_u8 < b.day.to_u8 then true
  else if b.day.to_u8 < a.day.to_u8 then false
  else if a.hour < b.hour then true
  else if b.hour < a.hour then false
  else a.minute ≤ b.minute

/-- Embedding of `BookingTime::offset` from facilities.rs.  Note this version
compares the ORIGINAL hour (`self.hour.0 < hours.0`) when deciding the day
borrow, and wraps the minute borrow with `(new_hour + 24 - 1) % 24`. -/
def BookingTime.offset (t : BookingTime) (hours minutes : Nat) (negative : Bool) : BookingTime :=
  if negative then
    let borrowed :=
      if t.minute < minutes then
        ((t.minute + 60 - minutes) % 60, (t.hour + 24 - 1) % 24)
      else ((t.minute - minutes) % 60, t.hour)
    let afterHour :=
      if t.hour < hours then ((borrowed.2 + 24 - hours) % 24, t.day.prev)
      else ((borrowed.2 - hours) % 24, t.day)
    { day := afterHour.2, hour := afterHour.1, minute := borrowed.1 }
  else
    let newMinute := (t.minute + minutes) % 60
    let h1 := if 60 ≤ t.minute + minutes then (t.hour + 1) % 24 else t.hour
    let totalHours := h1 + hours
    let newDay := if 24 ≤ totalHours then t.day.next else t.day
    { day := newDay, hour := totalHours % 24, minute := newMinute }

/-- The `Booking` struct (private fields `start_time`, `end_time`). -/
structure Booking where
  start_time : BookingTime
  end_time : BookingTime
deriving DecidableEq

/-- Embedding of `Booking::new`: errors iff `start_time >= end_time`. -/
def Booking.new (start_time end_time : BookingTime) : Except String Booking :=
  if BookingTime.leb end_time start_time then
    .error "Start time is equal or after end time"
  else .ok ⟨start_time, end_time⟩

/-- Embedding of `Booking::overlaps` (closed-interval intersection). -/
def Booking.overlaps (a other : Booking) : Bool :=
  (BookingTime.leb a.start_time other.start_time
      && BookingTime.leb other.start_time a.end_time)
    || (BookingTime.leb other.start_time a.start_time
      && BookingTime.leb a.start_time other.end_time)

/-- Embedding of `Booking::offset` from facilities.rs.  The source function
body is EMPTY, so the booking is returned unchanged. -/
def Booking.offset (b : Booking) (hours minutes : Nat) (negative : Bool) : Booking :=
  b

/-- A `BookingId` is a `Uuid` (16 bytes, modelled as a byte list). -/
abbrev BookingId := List Nat

/-- The `Facility` struct. -/
structure Facility where
  name : List Nat
  bookings : List (BookingId × Booking)
deriving DecidableEq

/-- Embedding of `Facility::add_new_booking`.  The fresh `Uuid::new_v4` id is
supplied as an explicit oracle argument.  Returns (result, state after),
mirroring the `&mut self` method. -/
def Facility.add_new_booking (f : Facility) (newId : BookingId) (new_booking : Booking) :
    Except String BookingId × Facility :=
  if f.bookings.any (fun p => p.2.overlaps new_booking) then
    (.error "New booking overlaps with at least 1 current booking", f)
  else
    (.ok newId, { f with bookings := f.bookings ++ [(newId, new_booking)] })

/-- Embedding of `Facility::add_booking_with_id`. -/
def Facility.add_booking_with_id (f : Facility) (booking_id : BookingId) (booking : Booking) :
    Except String Unit × Facility :=
  if f.bookings.any (fun p => p.1 == booking_id) then
    (.error "Booking already exists", f)
  else if f.bookings.any (fun p => p.2.overlaps booking) then
    (.error "New booking overlaps with at least 1 current booking", f)
  else
    (.ok (), { f with bookings := f.bookings ++ [(booking_id, booking)] })

/-- `Vec::remove` at the first position whose id matches, returning the
removed booking and the remaining list. -/
def removeFirst : List (BookingId × Booking) → BookingId →
    Option (Booking × List (BookingId × Booking))
  | [], _ => none
  | (i, b) :: rest, id =>
    if i == id then some (b, rest)
    else
      match removeFirst rest id with
      | none => none
      | some (bk, l) => some (bk, (i, b) :: l)

/-- Embedding of `Facility::remove_booking`. -/
def Facility.remove_booking (f : Facility) (booking_id : BookingId) :
    Except String Booking × Facility :=
  match removeFirst f.bookings booking_id with
  | none => (.error "Booking could not be found", f)
  | some (booking, rest) => (.ok booking, { f with bookings := rest })

/-- Embedding of `Facility::offset_booking`: remove, offset, re-insert with the
same id; on failure re-insert the original (`?` propagates a rollback error). -/
def Facility.offset_booking (f : Facility) (booking_id : BookingId)
    (hours minutes : Nat) (negative : Bool) : Except String Unit × Facility :=
  match Facility.remove_booking f booking_id with
  | (.error e, f1) => (.error e, f1)
  | (.ok booking, f1) =>
    let offset_booking := Booking.offset booking hours minutes negative
    match Facility.add_booking_with_id f1 booking_id offset_booking with
    | (.ok _, f2) => (.ok (), f2)
    | (.error e, _) =>
      match Facility.add_booking_with_id f1 booking_id booking with
      | (.ok _, f3) => (.error e, f3)
      | (.error e2, f3) => (.error e2, f3)

/-! ## Facility invariants (for the spec's testable properties) -/

/-- The well-formedness `Booking::new` establishes: NOT `end <= start`,
i.e. `start < end` in the derived total order. -/
def bookingWf (b : Booking) : Bool :=
  !(BookingTime.leb b.end_time b.start_time)

/-- The facility-level invariant: every stored booking is well-formed and
no two stored bookings overlap. -/
def Facility.inv (f : Facility) : Prop :=
  (∀ p ∈ f.bookings, bookingWf p.2 = true)
    ∧ List.Pairwise (fun p q => (p.2 : Booking).overlaps q.2 = false) f.bookings

instance (f : Facility) : Decidable f.inv := by
  unfold Facility.inv
  infer_instance

/-- The four facility-store operations named by the specification, with the
fresh-id oracle for `add_new_booking` made explicit. -/
inductive FacilityOp
  | addNew (newId : BookingId) (b : Booking)
  | addWithId (id : BookingId) (b : Booking)
  | removeB (id : BookingId)
  | offsetB (id : BookingId) (hours minutes : Nat) (negative : Bool)
deriving DecidableEq

/-- Run one operation, keeping the post-state whether or not it reported an
error (mirroring the `&mut self` methods). -/
def applyOp (f : Facility) : FacilityOp → Facility
  | .addNew newId b => (Facility.add_new_booking f newId b).2
  | .addWithId id b => (Facility.add_booking_with_id f id b).2
  | .removeB id => (Facility.remove_booking f id).2
  | .offsetB id h m neg => (Facility.offset_booking f id h m neg).2

/-- Booking arguments handed to the store were built by `Booking::new`
(the only constructor reachable from outside the module, since the fields
are private), hence well-formed. -/
def opWf : FacilityOp → Bool
  | .addNew _ b => bookingWf b
  | .addWithId _ b => bookingWf b
  | .removeB _ => true
  | .offsetB _ _ _ _ => true

theorem Booking.overlaps_symm (a b : Booking) : a.overlaps b = b.overlaps a := by
  unfold Booking.overlaps
  exact Bool.or_comm _ _

theorem removeFirst_sublist {l : List (BookingId × Booking)} {id : BookingId}
    {b : Booking} {l' : List (BookingId × Booking)}
    (h : removeFirst l id = some (b, l')) : l'.Sublist l := by
  induction l generalizing l' with
  | nil => simp [removeFirst] at h
  | cons p rest ih =>
    rw [removeFirst] at h
    by_cases hid : p.1 == id
    · simp only [hid, if_true] at h
      cases h
      exact (List.sublist_cons_self p rest)
    · simp only [hid, if_false] at h
      cases hrec : removeFirst rest id with
      | none => rw [hrec] at h; cases h
      | some q =>
        rw [hrec] at h
        cases q with
        | mk bk l2 =>
          cases h
          exact List.Sublist.cons₂ p (ih hrec)

theorem removeFirst_mem {l : List (BookingId × Booking)} {id : BookingId}
    {b : Booking} {l' : List (BookingId × Booking)}
    (h : removeFirst l id = some (b, l')) : ∃ u, (u, b) ∈ l := by
  induction l generalizing l' with
  | nil => simp [removeFirst] at h
  | cons p rest ih =>
    rw [removeFirst] at h
    by_cases hid : p.1 == id
    · simp only [hid, if_true] at h
      cases h
      exact ⟨p.1, by simp⟩
    · simp only [hid, if_false] at h
      cases hrec : removeFirst rest id with
      | none => rw [hrec] at h; cases h
      | some q =>
        rw [hrec] at h
        cases q with
        | mk bk l2 =>
          cases h
          obtain ⟨u, hu⟩ := ih hrec
          exact ⟨u, List.mem_cons_of_mem p hu⟩

theorem Facility.inv_of_sublist {f g : Facility}
    (hsub : g.bookings.Sublist f.bookings) (h : f.inv) : g.inv := by
  obtain ⟨hwf, hpw⟩ := h
  exact ⟨fun p hp => hwf p (hsub.mem hp), hpw.sublist hsub⟩

theorem Facility.add_booking_with_id_inv {f : Facility} {id : BookingId} {b : Booking}
    (hinv : f.inv) (hwf : bookingWf b = true) :
    (Facility.add_booking_with_id f id b).2.inv := by
  unfold Facility.add_booking_with_id
  split
  · exact hinv
  · split
    · exact hinv
    · rename_i hdup hov
      obtain ⟨hw, hpw⟩ := hinv
      constructor
      · intro p hp
        rcases List.mem_append.mp hp with hl | hr
        · exact hw p hl
        · simp only [List.mem_singleton] at hr
          subst hr
          exact hwf
      · rw [List.pairwise_append]
        refine ⟨hpw, List.pairwise_singleton _ _, ?_⟩
        intro x hx y hy
        simp only [List.mem_singleton] at hy
        subst hy
        have hov2 : (f.bookings.any fun p => p.2.overlaps b) = false := by
          cases hcase : (f.bookings.any fun p => p.2.overlaps b)
          · rfl
          · exact absurd hcase hov
        have := List.any_eq_false.mp hov2
        simpa using this x hx

theorem Facility.add_new_booking_inv {f : Facility} {newId : BookingId} {b : Booking}
    (hinv : f.inv) (hwf : bookingWf b = true) :
    (Facility.add_new_booking f newId b).2.inv := by
  unfold Facility.add_new_booking
  split
  · exact hinv
  · rename_i hov
    obtain ⟨hw, hpw⟩ := hinv
    constructor
    · intro p hp
      rcases List.mem_append.mp hp with hl | hr
      · exact hw p hl
      · simp only [List.mem_singleton] at hr
        subst hr
        exact hwf
    · rw [List.pairwise_append]
      refine ⟨hpw, List.pairwise_singleton _ _, ?_⟩
      intro x hx y hy
      simp only [List.mem_singleton] at hy
      subst hy
      have hov2 : (f.bookings.any fun p => p.2.overlaps b) = false := by
        cases hcase : (f.bookings.any fun p => p.2.overlaps b)
        · rfl
        · exact absurd hcase hov
      have := List.any_eq_false.mp hov2
      simpa using this x hx

theorem Facility.remove_booking_inv {f : Facility} {id : BookingId}
    (hinv : f.inv) : (Facility.remove_booking f id).2.inv := by
  unfold Facility.remove_booking
  cases hrem : removeFirst f.bookings id with
  | none => exact hinv
  | some q =>
    cases q with
    | mk bk rest =>
      exact Facility.inv_of_sublist (removeFirst_sublist hrem) hinv

theorem Facility.offset_booking_inv {f : Facility} {id : BookingId}
    {hours minutes : Nat} {negative : Bool} (hinv : f.inv) :
    (Facility.offset_booking f id hours minutes negative).2.inv := by
  unfold Facility.offset_booking
  split
  · rename_i e f1 heq
    have hf1 : f1 = (Facility.remove_booking f id).2 := by rw [heq]
    rw [hf1]
    exact Facility.remove_booking_inv hinv
  · rename_i booking f1 heq
    have hf1 : f1.inv := by
      have h2 : f1 = (Facility.remove_booking f id).2 := by rw [heq]
      rw [h2]; exact Facility.remove_booking_inv hinv
    have hbwf : bookingWf booking = true := by
      rw [Facility.remove_booking] at heq
      cases hrf : removeFirst f.bookings id with
      | none => rw [hrf] at heq; simp at heq
      | some q =>
        obtain ⟨bk, rest⟩ := q
        rw [hrf] at heq
        simp only [Prod.mk.injEq, Except.ok.injEq] at heq
        obtain ⟨hb, hf⟩ := heq
        obtain ⟨u, hu⟩ := removeFirst_mem hrf
        exact hb ▸ hinv.1 (u, bk) hu
    simp only [Booking.offset]
    split
    · rename_i u f2 heq2
      have h2 : f2 = (Facility.add_booking_with_id f1 id booking).2 := by rw [heq2]
      rw [h2]
      exact Facility.add_booking_with_id_inv hf1 hbwf
    · rename_i e f2 heq2
      have h2 : f2 = (Facility.add_booking_with_id f1 id booking).2 := by rw [heq2]
      rw [h2]
      exact Facility.add_booking_with_id_inv hf1 hbwf

theorem applyOp_inv {f : Facility} {op : FacilityOp}
    (hinv : f.inv) (hwf : opWf op = true) : (applyOp f op).inv := by
  cases op with
  | addNew newId b => exact Facility.add_new_booking_inv hinv hwf
  | addWithId id b => exact Facility.add_booking_with_id_inv hinv hwf
  | removeB id => exact Facility.remove_booking_inv hinv
  | offsetB id h m neg => exact Facility.offset_booking_inv hinv

/-! ## Server response log (src/server/src/log.rs) -/

/-- `MAX_LOG_LENGTH`. -/
def MAX_LOG_LENGTH : Nat := 50

/-- The `Log`: a `VecDeque<(Uuid, Vec<u8>)>`, front = oldest. -/
abbrev Log := List (List Nat × List Nat)

/-- Embedding of `Log::check`: first entry (scanning from the front) whose id
matches.  The method takes `&mut self` in Rust but performs no mutation. -/
def Log.check (log : Log) (request_id : List Nat) : Option (List Nat) :=
  match log.find? (fun e => e.1 == request_id) with
  | some e => some e.2
  | none => none

/-- Embedding of `Log::insert`: pop the oldest entry when at capacity, then
push the new entry at the back. -/
def Log.insert (log : Log) (request_id : List Nat) (response : List Nat) : Log :=
  (if MAX_LOG_LENGTH ≤ log.length then log.drop 1 else log) ++ [(request_id, response)]

/-! ## Server transport (src/server/src/socket.rs) -/

/-- A peer address (opaque). -/
abbrev Addr := Nat

/-- Embedding of `SenderReceiver::receive` (server side).  The socket's
incoming datagrams are modelled as a queue of (bytes, source address) pairs,
and the `rng.random_range(0.0..1.0) < packet_drop_rate` draws as a list of
booleans (`true` = drop).  The result carries the surfaced request plus the
list of cached responses re-transmitted along the way (bytes, destination).
An exhausted queue is modelled as a receive error. -/
def serverReceive (log : Log) (use_reliability : Bool) :
    List (List Nat × Addr) → List Bool →
    Except String ((RawRequest × Addr) × List (List Nat × Addr))
  | [], _ => .error "Failed to receive UDP data"
  | _ :: _, [] => .error "Failed to receive UDP data"
  | (bytes, source_addr) :: rest, roll :: rolls =>
    if roll then serverReceive log use_reliability rest rolls
    else
      match RawRequest.from_bytes bytes with
      | .error e => .error e
      | .ok (request, _) =>
        if use_reliability then
          match Log.check log request.request_id with
          | some response =>
            (serverReceive log use_reliability rest rolls).map
              (fun r => (r.1, (response, source_addr) :: r.2))
          | none => .ok ((request, source_addr), [])
        else .ok ((request, source_addr), [])

/-- Embedding of the log update in `SenderReceiver::send` (server side): with
reliability on, the serialized response bytes are inserted under the
response's `request_id` before transmission. -/
def serverSendLog (log : Log) (response : RawResponse) : Log :=
  Log.insert log response.request_id (RawResponse.to_bytes response)

theorem find?_append_none {α : Type} {p : α → Bool} {l1 l2 : List α}
    (h : l1.find? p = none) : (l1 ++ l2).find? p = l2.find? p := by
  induction l1 with
  | nil => simp
  | cons a l ih =>
    rw [List.find?_cons] at h
    cases hp : p a with
    | true => rw [hp] at h; cases h
    | false =>
      rw [hp] at h
      rw [List.cons_append, List.find?_cons, hp]
      exact ih h

theorem find?_none_drop {α : Type} {p : α → Bool} {l : List α}
    (h : l.find? p = none) (n : Nat) : (l.drop n).find? p = none := by
  rw [List.find?_eq_none] at h ⊢
  intro x hx
  exact h x (List.mem_of_mem_drop hx)

/-- After a fresh insert, `check` retrieves exactly the inserted bytes. -/
theorem Log.check_insert {log : Log} {id bytes : List Nat}
    (h : Log.check log id = none) :
    Log.check (Log.insert log id bytes) id = some bytes := by
  have hfind : log.find? (fun e => e.1 == id) = none := by
    unfold Log.check at h
    cases hf : log.find? (fun e => e.1 == id) with
    | none => rfl
    | some e => rw [hf] at h; cases h
  unfold Log.insert Log.check
  have hpre : (if MAX_LOG_LENGTH ≤ log.length then log.drop 1 else log).find?
      (fun e => e.1 == id) = none := by
    split
    · exact find?_none_drop hfind 1
    · exact hfind
  rw [find?_append_none hpre]
  simp [List.find?_cons]

/-! ## Client transport (src/client/src/socket.rs) -/

/-- `MAX_RETRIES`. -/
def MAX_RETRIES : Nat := 10

/-- One outcome of `socket.recv_from` in the client receive loop. -/
inductive RecvEvent
  | timeout
  | fatal
  | datagram (bytes : List Nat)
deriving DecidableEq

/-- Embedding of the INNER `loop` of the reliable branch of
`SenderReceiver::send` (client side).  On `Ok`, the buffer is decoded as a
`RawResponse` (a decode failure returns the error via `?`), mismatched
request ids are skipped, a match returns the response; on a timeout error the
code sleeps and loops back to another receive (there is no `break`); a
non-timeout error returns immediately.  `none` means the loop was still
running when the supplied event trace ran out. -/
def clientRecvLoop (request_id : List Nat) :
    List RecvEvent → Option (Except String RawResponse)
  | [] => none
  | .timeout :: rest => clientRecvLoop request_id rest
  | .fatal :: _ => some (.error "Got a non-timeout error while receiving message")
  | .datagram bytes :: rest =>
    match RawResponse.from_bytes bytes with
    | .error e => some (.error e)
    | .ok (response, _) =>
      if response.request_id == request_id then some (.ok response)
      else clientRecvLoop request_id rest

/-- Embedding of the `for retry in 0..MAX_RETRIES` loop of the reliable
branch of `SenderReceiver::send`.  `rolls retry` models
`rng.random_range(0.0..1.0) < duplicate_packet_rate` for that attempt
(`true` skips the receive and continues to the next attempt).  Returns the
number of datagram transmissions performed together with the outcome
(`none` = the inner receive loop never exited within the event trace). -/
def clientSendLoop (request_id : List Nat) (rolls : Nat → Bool)
    (events : List RecvEvent) : Nat → Nat → Nat × Option (Except String RawResponse)
  | _, 0 => (0, some (.error "Timeout occurred; maxed out at 10 retries"))
  | retry, fuel + 1 =>
    if rolls retry then
      let next := clientSendLoop request_id rolls events (retry + 1) fuel
      (next.1 + 1, next.2)
    else
      (1, clientRecvLoop request_id events)

/-- Embedding of the reliable branch of `SenderReceiver::send`: serialize
once, then run the retry loop from attempt 0. -/
def clientSend (request_id : List Nat) (rolls : Nat → Bool)
    (events : List RecvEvent) : Nat × Option (Except String RawResponse) :=
  clientSendLoop request_id rolls events 0 MAX_RETRIES

/-! ## Request dispatcher (src/server/src/handler.rs)

handler.rs constructs `RawResponse { request_id, is_error: false, message }`,
i.e. it uses a response record with a `bool` flag and a `String` message
(which does not match the `RawResponse` struct declared in responses.rs);
the handler's response value is embedded as its own record. -/

/-- The response record as constructed throughout handler.rs. -/
structure HandlerResponse where
  request_id : List Nat
  is_error : Bool
  message : String
deriving DecidableEq

/-- The dispatcher state: the facilities and the monitoring subscriptions
`(source address, facility name, expiry instant)`.  Wall-clock instants are
modelled as naturals. -/
structure HState where
  facilities : List Facility
  monitoring_addresses : List (Addr × List Nat × Nat)
deriving DecidableEq

/-- Modelled from the spec: `Facility::new` is referenced by `Handler::new`
but absent from the facilities.rs under src/; a facility starts with no
bookings. -/
def Facility.new (name : List Nat) : Facility := ⟨name, []⟩

/-- Modelled from the spec: `get(id) → Booking?` (`Facility::get_booking_details`
is called by the handler but absent from the facilities.rs under src/). -/
def Facility.get_booking_details (f : Facility) (id : BookingId) :
    Option (BookingId × Booking) :=
  f.bookings.find? (fun p => p.1 == id)

/-- Modelled from the spec: `Booking::time` (used by the handler as
`booking.time().0.day`, i.e. the endpoints pair). -/
def Booking.time (b : Booking) : BookingTime × BookingTime :=
  (b.start_time, b.end_time)

/-- Two-digit field of the `Display` impls for `Hour`/`Minute`. -/
def fmt2 (n : Nat) : String := if n < 10 then "0" ++ toString n else toString n

/-- Short day name as printed in the availability listings. -/
def Day.shortName : Day → String
  | .monday => "Mon"
  | .tuesday => "Tue"
  | .wednesday => "Wed"
  | .thursday => "Thu"
  | .friday => "Fri"
  | .saturday => "Sat"
  | .sunday => "Sun"

/-- `hour:minute` display. -/
def fmtHM (hm : Nat × Nat) : String := fmt2 hm.1 ++ ":" ++ fmt2 hm.2

/-- Strict order on (hour, minute) pairs. -/
def hmLt (a b : Nat × Nat) : Bool := a.1 < b.1 || (a.1 == b.1 && a.2 < b.2)

/-- Insert a booking into a list sorted by start time. -/
def insertByStart (b : Booking) : List Booking → List Booking
  | [] => [b]
  | c :: rest =>
    if BookingTime.leb b.start_time c.start_time then b :: c :: rest
    else c :: insertByStart b rest

/-- Sort bookings by start time (insertion sort). -/
def sortByStart : List Booking → List Booking
  | [] => []
  | b :: rest => insertByStart b (sortByStart rest)

/-- The complementary open intervals between `cur` and the closed day end
23:59, walking the sorted bookings in order. -/
def freeGaps : List Booking → Nat × Nat → List ((Nat × Nat) × (Nat × Nat))
  | [], cur => if hmLt cur (23, 59) then [(cur, (23, 59))] else []
  | b :: rest, cur =>
    let s := (b.start_time.hour, b.start_time.minute)
    let e := (b.end_time.hour, b.end_time.minute)
    if hmLt cur s then (cur, s) :: freeGaps rest e
    else freeGaps rest e

/-- Modelled from the spec: `Facility::get_availabilities` (called by the
handler but absent from the facilities.rs under src/).  Per section 4.3:
sorts that day's bookings by start time, walks them in order, and emits the
complementary open intervals from 00:00 to 23:59 inclusive as an enumerated
list. -/
def Facility.get_availabilities (f : Facility) (day : Day) : String :=
  let dayBookings := (f.bookings.map (fun p => p.2)).filter
    (fun b => b.start_time.day == day)
  let gaps := freeGaps (sortByStart dayBookings) (0, 0)
  String.intercalate "\n"
    (gaps.enum.map (fun g =>
      toString (g.1 + 1) ++ ". " ++ Day.shortName day ++ ", "
        ++ fmtHM g.2.1 ++ " - " ++ fmtHM g.2.2))

/-- Modelled from the spec: `Facility::extend_booking` (called by the handler
but absent from the facilities.rs under src/).  Per section 4.3: same pattern
as offset but shifting only `end_time`; fails if it would cross the day
boundary or overlap, re-inserting the original on failure. -/
def Facility.extend_booking (f : Facility) (booking_id : BookingId)
    (hours minutes : Nat) : Except String Unit × Facility :=
  match Facility.remove_booking f booking_id with
  | (.error e, f1) => (.error e, f1)
  | (.ok booking, f1) =>
    let newEnd := BookingTime.offset booking.end_time hours minutes false
    if newEnd.day == booking.start_time.day then
      match Facility.add_booking_with_id f1 booking_id { booking with end_time := newEnd } with
      | (.ok _, f2) => (.ok (), f2)
      | (.error e, _) =>
        match Facility.add_booking_with_id f1 booking_id booking with
        | (_, f3) => (.error e, f3)
    else
      match Facility.add_booking_with_id f1 booking_id booking with
      | (_, f3) => (.error "Extended booking crosses the day boundary", f3)

/-- The handler passes `shared::time::Time` values into the booking store
(whose `BookingTime` has the same day/hour/minute fields). -/
def toBookingTime (t : Time) : BookingTime := ⟨t.day, t.hour, t.minute⟩

/-- Embedding of `Handler::send_monitor_message`: evict expired
subscriptions (retain `expiry > now`), then, if the facility exists, send a
fresh-id response with the updated availability to every subscriber of the
facility.  The fresh `Uuid::new_v4` is an explicit oracle argument.  Returns
the new state and the list of (response, destination) sends. -/
def sendMonitorMessage (st : HState) (now : Nat) (fresh_response_id : List Nat)
    (facility_name : List Nat) (updated_day : Day) :
    HState × List (HandlerResponse × Addr) :=
  let retained := st.monitoring_addresses.filter (fun m => now < m.2.2)
  match st.facilities.find? (fun f => f.name == facility_name) with
  | none => ({ st with monitoring_addresses := retained }, [])
  | some facility =>
    let availabilities := Facility.get_availabilities facility updated_day
    let monitoring_message := "-----\n A booking was updated on "
      ++ Day.shortName updated_day ++ "; new availabilities:\n "
      ++ availabilities ++ "\n -----"
    let response : HandlerResponse := ⟨fresh_response_id, false, monitoring_message⟩
    let relevant := retained.filter (fun m => m.2.1 == facility_name)
    ({ st with monitoring_addresses := retained },
      relevant.map (fun m => (response, m.1)))

/-- Insertion into a day list sorted by ordinal (`Vec::sort`). -/
def insertDay (d : Day) : List Day → List Day
  | [] => [d]
  | c :: rest => if d.to_u8 ≤ c.to_u8 then d :: c :: rest else c :: insertDay d rest

/-- `Vec::sort` on the day list. -/
def sortDays : List Day → List Day
  | [] => []
  | d :: rest => insertDay d (sortDays rest)

/-- `Vec::dedup`: removes consecutive duplicates. -/
def dedupDays : List Day → List Day
  | [] => []
  | [d] => [d]
  | a :: b :: rest =>
    if a == b then dedupDays (b :: rest) else a :: dedupDays (b :: rest)

/-- Embedding of `Handler::handle_availability_request` (`&self`: reads
state, never mutates it): sort and dedup the requested days, then emit one
formatted block per day; unknown facility errors. -/
def handleAvailabilityRequest (st : HState) (req : AvailabilityRequest) :
    Except String String :=
  match st.facilities.find? (fun f => f.name == req.facility_name) with
  | some facility =>
    let days := dedupDays (sortDays req.days)
    .ok (String.join (days.map (fun day =>
      "-----\n " ++ Facility.get_availabilities facility day ++ "\n -----\n")))
  | none => .error "No such facility found"

/-- Replace the first facility with the given name (the effect of mutating
through `iter_mut().find(..)`). -/
def updateFirstFacility : List Facility → List Nat → Facility → List Facility
  | [], _, _ => []
  | f :: rest, name, newF =>
    if f.name == name then newF :: rest
    else f :: updateFirstFacility rest name newF

/-- Embedding of `Handler::handle_booking_request`. -/
def handleBookingRequest (st : HState) (now : Nat)
    (fresh_booking_id fresh_response_id : List Nat) (req : BookRequest) :
    Except String String × HState × List (HandlerResponse × Addr) :=
  match st.facilities.find? (fun f => f.name == req.facility_name) with
  | none => (.error "No such facility found", st, [])
  | some facility =>
    let booking_day := req.start_time.day
    match Booking.new (toBookingTime req.start_time) (toBookingTime req.end_time) with
    | .error e => (.error e, st, [])
    | .ok new_booking =>
      match Facility.add_new_booking facility fresh_booking_id new_booking with
      | (.error e, _) => (.error e, st, [])
      | (.ok new_id, facility2) =>
        let st1 := { st with
          facilities := updateFirstFacility st.facilities req.facility_name facility2 }
        let sm := sendMonitorMessage st1 now fresh_response_id req.facility_name booking_day
        (.ok ("Successfully added new booking with ID: " ++ toString new_id),
          sm.1, sm.2)

/-- The `for facility in &mut self.facilities` search of
`Handler::handle_offset_request`: acts on the first facility containing the
booking id, keeping the (possibly mutated) facility in place.  Returns the
result, the facilities afterwards, and on success the (facility name, day)
for the notification. -/
def offsetAcrossFacilities (id : BookingId) (hours minutes : Nat) (negative : Bool) :
    List Facility → Except String String × List Facility × Option (List Nat × Day)
  | [] => (.error "No booking ID found in any facility", [], none)
  | facility :: rest =>
    match Facility.get_booking_details facility id with
    | some p =>
      let booking_day := (Booking.time p.2).1.day
      match Facility.offset_booking facility id hours minutes negative with
      | (.ok _, facility2) =>
        (.ok ("Facility " ++ toString facility.name ++ " successfully offsetted"),
          facility2 :: rest, some (facility.name, booking_day))
      | (.error e, facility2) => (.error e, facility2 :: rest, none)
    | none =>
      let r := offsetAcrossFacilities id hours minutes negative rest
      (r.1, facility :: r.2.1, r.2.2)

/-- The analogous search of `Handler::handle_extend_request` (the source
reuses the "successfully offsetted" message). -/
def extendAcrossFacilities (id : BookingId) (hours minutes : Nat) :
    List Facility → Except String String × List Facility × Option (List Nat × Day)
  | [] => (.error "No booking ID found in any facility", [], none)
  | facility :: rest =>
    match Facility.get_booking_details facility id with
    | some p =>
      let booking_day := (Booking.time p.2).1.day
      match Facility.extend_booking facility id hours minutes with
      | (.ok _, facility2) =>
        (.ok ("Facility " ++ toString facility.name ++ " successfully offsetted"),
          facility2 :: rest, some (facility.name, booking_day))
      | (.error e, facility2) => (.error e, facility2 :: rest, none)
    | none =>
      let r := extendAcrossFacilities id hours minutes rest
      (r.1, facility :: r.2.1, r.2.2)

/-- The analogous search of `Handler::handle_cancel_request`. -/
def cancelAcrossFacilities (id : BookingId) :
    List Facility → Except String String × List Facility × Option (List Nat × Day)
  | [] => (.error "No booking with ID found", [], none)
  | facility :: rest =>
    match Facility.get_booking_details facility id with
    | some p =>
      let booking_day := (Booking.time p.2).1.day
      match Facility.remove_booking facility id with
      | (.ok _, facility2) =>
        (.ok ("Booking " ++ toString id ++ " successfully cancelled"),
          facility2 :: rest, some (facility.name, booking_day))
      | (.error e, facility2) => (.error e, facility2 :: rest, none)
    | none =>
      let r := cancelAcrossFacilities id rest
      (r.1, facility :: r.2.1, r.2.2)

/-- Embedding of `Handler::handle_monitor_request`. -/
def handleMonitorRequest (st : HState) (now : Nat) (req : MonitorFacilityRequest)
    (source_addr : Addr) : Except String String × HState :=
  match st.facilities.find? (fun f => f.name == req.facility_name) with
  | some _ =>
    let expiry := now + req.seconds_to_monitor
    (.ok "Successfully registered for monitoring",
      { st with monitoring_addresses :=
          st.monitoring_addresses ++ [(source_addr, req.facility_name, expiry)] })
  | none => (.error "No facility found", st)

/-- The response construction at the end of `Handler::handle_message`. -/
def mkResponse (request_id : List Nat) : Except String String → HandlerResponse
  | .ok message => ⟨request_id, false, message⟩
  | .error e => ⟨request_id, true, e⟩

/-- Embedding of `Handler::handle_message`: dispatch on the request type,
then wrap the result into a response carrying the request's id.  `now` models
`Utc::now()`, and the two fresh uuids are the oracle for `Uuid::new_v4` (new
booking ids, monitor-message response ids).  Returns the state afterwards,
the reply, and the monitor-notification sends. -/
def handleMessage (st : HState) (now : Nat)
    (fresh_booking_id fresh_response_id : List Nat) (req : RawRequest)
    (source_addr : Addr) : HState × HandlerResponse × List (HandlerResponse × Addr) :=
  match req.request_type with
  | .availability r =>
    (st, mkResponse req.request_id (handleAvailabilityRequest st r), [])
  | .book r =>
    let x := handleBookingRequest st now fresh_booking_id fresh_response_id r
    (x.2.1, mkResponse req.request_id x.1, x.2.2)
  | .offset r =>
    let x := offsetAcrossFacilities r.booking_id r.offset_hours r.offset_min
      r.negative st.facilities
    let st1 := { st with facilities := x.2.1 }
    match x.2.2 with
    | some nd =>
      let sm := sendMonitorMessage st1 now fresh_response_id nd.1 nd.2
      (sm.1, mkResponse req.request_id x.1, sm.2)
    | none => (st1, mkResponse req.request_id x.1, [])
  | .extend r =>
    let x := extendAcrossFacilities r.booking_id r.extend_hours r.extend_min
      st.facilities
    let st1 := { st with facilities := x.2.1 }
    match x.2.2 with
    | some nd =>
      let sm := sendMonitorMessage st1 now fresh_response_id nd.1 nd.2
      (sm.1, mkResponse req.request_id x.1, sm.2)
    | none => (st1, mkResponse req.request_id x.1, [])
  | .cancel r =>
    let x := cancelAcrossFacilities r.booking_id st.facilities
    let st1 := { st with facilities := x.2.1 }
    match x.2.2 with
    | some nd =>
      let sm := sendMonitorMessage st1 now fresh_response_id nd.1 nd.2
      (sm.1, mkResponse req.request_id x.1, sm.2)
    | none => (st1, mkResponse req.request_id x.1, [])
  | .monitor r =>
    let x := handleMonitorRequest st now r source_addr
    (x.2, mkResponse req.request_id x.1, [])

/-! ## Claim theorems -/

/-- C1: for every `RawRequest` (over all six `RequestType` variants, with
valid field values) and every `RawResponse`, decoding the bytes produced by
encoding yields the original value (with the whole buffer consumed). -/
theorem c1_roundtrip (r : RawRequest) (resp : RawResponse)
    (hr : r.wf = true) (hresp : resp.wf = true) :
    RawRequest.from_bytes (RawRequest.to_bytes r) = .ok (r, [])
      ∧ RawResponse.from_bytes (RawResponse.to_bytes resp) = .ok (resp, []) :=
  ⟨raw_request_rt r hr, raw_response_rt resp hresp⟩

/-- Witness for C1 at a concrete book request and a concrete response. -/
theorem c1_roundtrip_witness :
    RawRequest.wf ⟨List.replicate 16 3,
        .book ⟨[77, 82, 49], ⟨Day.monday, 9, 0⟩, ⟨Day.monday, 10, 0⟩⟩⟩ = true
  ∧ RawResponse.wf ⟨List.replicate 16 3, 0, 2, [79, 75]⟩ = true
  ∧ (RawRequest.from_bytes (RawRequest.to_bytes ⟨List.replicate 16 3,
        .book ⟨[77, 82, 49], ⟨Day.monday, 9, 0⟩, ⟨Day.monday, 10, 0⟩⟩⟩)
      = .ok (⟨List.replicate 16 3,
        .book ⟨[77, 82, 49], ⟨Day.monday, 9, 0⟩, ⟨Day.monday, 10, 0⟩⟩⟩, [])
    ∧ RawResponse.from_bytes (RawResponse.to_bytes ⟨List.replicate 16 3, 0, 2, [79, 75]⟩)
      = .ok (⟨List.replicate 16 3, 0, 2, [79, 75]⟩, [])) :=
  ⟨by decide, by decide, c1_roundtrip _ _ (by decide) (by decide)⟩

/-- C2: with reliability on, once the server has sent a response (inserting
its bytes into the log under a previously unseen request id), `receive` on a
later datagram decoding to a request with that id re-transmits exactly those
cached bytes to the datagram's sender and never surfaces that request: the
surfaced request and all further behaviour equal those of the remaining
queue alone, and the log is not touched (`Log::check` reads only). -/
theorem c2_duplicate_suppression (L0 : Log) (resp : RawResponse) (d : List Nat)
    (a : Addr) (rest : List (List Nat × Addr)) (rolls : List Bool)
    (req : RawRequest) (rem : List Nat)
    (hfresh : Log.check L0 resp.request_id = none)
    (hdec : RawRequest.from_bytes d = .ok (req, rem))
    (hid : req.request_id = resp.request_id) :
    Log.check (serverSendLog L0 resp) req.request_id
        = some (RawResponse.to_bytes resp)
      ∧ serverReceive (serverSendLog L0 resp) true ((d, a) :: rest) (false :: rolls)
        = (serverReceive (serverSendLog L0 resp) true rest rolls).map
            (fun r => (r.1, (RawResponse.to_bytes resp, a) :: r.2)) := by
  have hcheck : Log.check (serverSendLog L0 resp) req.request_id
      = some (RawResponse.to_bytes resp) := by
    rw [hid]
    exact Log.check_insert hfresh
  refine ⟨hcheck, ?_⟩
  simp only [serverReceive, Bool.false_eq_true, if_false, hdec, hcheck, if_true]

/-- Witness for C2 at a concrete log, response and duplicate datagram. -/
theorem c2_duplicate_suppression_witness :
    Log.check ([] : Log) (List.replicate 16 7) = none
  ∧ RawRequest.from_bytes (RawRequest.to_bytes
        ⟨List.replicate 16 7, .cancel ⟨List.replicate 16 9⟩⟩)
      = .ok (⟨List.replicate 16 7, .cancel ⟨List.replicate 16 9⟩⟩, [])
  ∧ (Log.check (serverSendLog [] ⟨List.replicate 16 7, 0, 2, [79, 75]⟩)
        (List.replicate 16 7)
      = some (RawResponse.to_bytes ⟨List.replicate 16 7, 0, 2, [79, 75]⟩)
    ∧ serverReceive (serverSendLog [] ⟨List.replicate 16 7, 0, 2, [79, 75]⟩) true
        [(RawRequest.to_bytes ⟨List.replicate 16 7, .cancel ⟨List.replicate 16 9⟩⟩, 5)]
        [false]
      = (serverReceive (serverSendLog [] ⟨List.replicate 16 7, 0, 2, [79, 75]⟩)
          true [] []).map
          (fun r => (r.1, (RawResponse.to_bytes
            ⟨List.replicate 16 7, 0, 2, [79, 75]⟩, 5) :: r.2))) :=
  ⟨by decide, by decide,
    c2_duplicate_suppression [] ⟨List.replicate 16 7, 0, 2, [79, 75]⟩
      (RawRequest.to_bytes ⟨List.replicate 16 7, .cancel ⟨List.replicate 16 9⟩⟩)
      5 [] [] ⟨List.replicate 16 7, .cancel ⟨List.replicate 16 9⟩⟩ []
      (by decide) (by decide) rfl⟩

/-- C3: evaluating `Time::offset` at Monday 00:30 with offset -(0h 45m).
The code yields Monday 23:45 because `checked_sub(1).unwrap_or(23)` wraps
the hour without recording a day borrow, whereas the minutes-of-week
arithmetic required by the claim yields Sunday 23:45. -/
theorem c3_offset_drops_day_borrow :
    Time.offset ⟨Day.monday, 0, 30⟩ 0 45 true = ⟨Day.monday, 23, 45⟩
  ∧ timeMinutes (Time.offset ⟨Day.monday, 0, 30⟩ 0 45 true)
      ≠ (timeMinutes ⟨Day.monday, 0, 30⟩ + 10080 - (60 * 0 + 45)) % 10080 := by
  decide

/-- C4 counterexample: `Booking::new` accepts a cross-day booking
(Monday 23:00 to Tuesday 01:00) and `Facility::add_new_booking` stores it, so
after a successful operation a stored booking can violate
`start_time.day == end_time.day`. -/
theorem c4_cross_day_counterexample :
    Booking.new ⟨Day.monday, 23, 0⟩ ⟨Day.tuesday, 1, 0⟩
      = .ok ⟨⟨Day.monday, 23, 0⟩, ⟨Day.tuesday, 1, 0⟩⟩
  ∧ (Facility.add_new_booking ⟨[77, 82, 49], []⟩ (List.replicate 16 1)
        ⟨⟨Day.monday, 23, 0⟩, ⟨Day.tuesday, 1, 0⟩⟩).1 = .ok (List.replicate 16 1)
  ∧ (Facility.add_new_booking ⟨[77, 82, 49], []⟩ (List.replicate 16 1)
        ⟨⟨Day.monday, 23, 0⟩, ⟨Day.tuesday, 1, 0⟩⟩).2.bookings.all
        (fun p => p.2.start_time.day == p.2.end_time.day) = false := by
  decide

/-- C4 (amended): for every sequence of facility operations whose booking
arguments are well-formed (as `Booking::new` guarantees), starting from a
facility satisfying the invariant, after every operation each stored booking
satisfies `start_time < end_time` and no two stored bookings overlap. -/
theorem c4_invariant_preserved : ∀ (ops : List FacilityOp) (f : Facility),
    f.inv → (∀ op ∈ ops, opWf op = true) → (ops.foldl applyOp f).inv := by
  intro ops
  induction ops with
  | nil => intro f hinv _; exact hinv
  | cons op rest ih =>
    intro f hinv hwf
    rw [List.foldl_cons]
    exact ih (applyOp f op)
      (applyOp_inv hinv (hwf op (List.mem_cons_self op rest)))
      (fun o ho => hwf o (List.mem_cons_of_mem _ ho))

/-- Witness for the amended C4 at a concrete operation sequence. -/
theorem c4_invariant_preserved_witness :
    Facility.inv ⟨[77, 82, 49], []⟩
  ∧ (∀ op ∈ ([.addNew (List.replicate 16 1)
        ⟨⟨Day.monday, 9, 0⟩, ⟨Day.monday, 10, 0⟩⟩,
      .addNew (List.replicate 16 2)
        ⟨⟨Day.monday, 11, 0⟩, ⟨Day.monday, 12, 0⟩⟩,
      .offsetB (List.replicate 16 1) 2 0 false,
      .removeB (List.replicate 16 2)] : List FacilityOp), opWf op = true)
  ∧ Facility.inv (([.addNew (List.replicate 16 1)
        ⟨⟨Day.monday, 9, 0⟩, ⟨Day.monday, 10, 0⟩⟩,
      .addNew (List.replicate 16 2)
        ⟨⟨Day.monday, 11, 0⟩, ⟨Day.monday, 12, 0⟩⟩,
      .offsetB (List.replicate 16 1) 2 0 false,
      .removeB (List.replicate 16 2)] : List FacilityOp).foldl applyOp
      ⟨[77, 82, 49], []⟩) :=
  ⟨by decide, by decide, c4_invariant_preserved _ _ (by decide) (by decide)⟩

/-- C5: evaluating `Facility::offset_booking` on a facility holding two
overlapping bookings.  The call on the first booking's id returns an error,
yet the facility afterwards has LOST that booking (the rollback re-insert
fails for the same overlap and `?` propagates, dropping it), so the bookings
collection does not equal the collection before the call. -/
theorem c5_offset_error_loses_booking :
    (Facility.offset_booking
      ⟨[77, 82, 49], [(List.replicate 16 1, ⟨⟨Day.monday, 9, 0⟩, ⟨Day.monday, 10, 0⟩⟩),
        (List.replicate 16 2, ⟨⟨Day.monday, 9, 30⟩, ⟨Day.monday, 10, 30⟩⟩)]⟩
      (List.replicate 16 1) 1 0 false).1 ≠ .ok ()
  ∧ (Facility.offset_booking
      ⟨[77, 82, 49], [(List.replicate 16 1, ⟨⟨Day.monday, 9, 0⟩, ⟨Day.monday, 10, 0⟩⟩),
        (List.replicate 16 2, ⟨⟨Day.monday, 9, 30⟩, ⟨Day.monday, 10, 30⟩⟩)]⟩
      (List.replicate 16 1) 1 0 false).2.bookings
    = [(List.replicate 16 2, ⟨⟨Day.monday, 9, 30⟩, ⟨Day.monday, 10, 30⟩⟩)] := by
  decide

/-- C6: evaluating the offset path on a concrete booking.  `Booking::offset`
has an empty body, so `Facility::offset_booking` reports success while
leaving the booking at Monday 09:00-10:00; the shift described by the claim
(as computed by the `BookingTime::offset` that the source never calls) would
move the start to Monday 10:00. -/
theorem c6_booking_offset_is_noop :
    (Facility.offset_booking
        ⟨[77, 82, 49], [(List.replicate 16 1, ⟨⟨Day.monday, 9, 0⟩, ⟨Day.monday, 10, 0⟩⟩)]⟩
        (List.replicate 16 1) 1 0 false).1 = .ok ()
  ∧ (Facility.offset_booking
        ⟨[77, 82, 49], [(List.replicate 16 1, ⟨⟨Day.monday, 9, 0⟩, ⟨Day.monday, 10, 0⟩⟩)]⟩
        (List.replicate 16 1) 1 0 false).2.bookings
      = [(List.replicate 16 1, ⟨⟨Day.monday, 9, 0⟩, ⟨Day.monday, 10, 0⟩⟩)]
  ∧ Booking.offset ⟨⟨Day.monday, 9, 0⟩, ⟨Day.monday, 10, 0⟩⟩ 1 0 false
      = ⟨⟨Day.monday, 9, 0⟩, ⟨Day.monday, 10, 0⟩⟩
  ∧ BookingTime.offset ⟨Day.monday, 9, 0⟩ 1 0 false = ⟨Day.monday, 10, 0⟩ := by
  decide

/-- C7: evaluating deserialization on out-of-range ordinals.  A `Day` byte
above 6 does fail, but `Hour::from_bytes` and `Minute::from_bytes` accept any
byte (the byte 99 decodes to Hour 99 and Minute 99), contradicting the claim
that decoding fails on an hour byte above 23 or a minute byte above 59. -/
theorem c7_hour_minute_decode_unvalidated :
    Hour.from_bytes [99] = .ok (99, [])
  ∧ Minute.from_bytes [99] = .ok (99, [])
  ∧ Day.from_bytes [7] = .error "Can only be between 0-6"
  ∧ ¬(99 < 24) ∧ ¬(99 < 60) := by
  decide

/-- Modelled from the spec: the `RawResponse` wire layout of section 4.1,
`uuid request_id | bool is_error | string message`, for comparison with the
layout the source actually emits. -/
def responseWireSpec (request_id : List Nat) (is_error : Bool) (message : List Nat) :
    List Nat :=
  Uuid.to_bytes request_id ++ RBool.to_bytes is_error ++ RStr.to_bytes message

/-- C8: evaluating `RawResponse` serialization on a one-byte message "A".
The emitted bytes are uuid, `u8 is_error`, the `length` field's two bytes,
then the `Vec<u8>` payload with its OWN two-byte count - 22 bytes in all,
with the byte count duplicated - which differs from the spec layout
`uuid | bool | string` (20 bytes). -/
theorem c8_response_wire_divergence :
    RawResponse.to_bytes (RawResponse.from_string (List.replicate 16 0) 1 [65])
      = List.replicate 16 0 ++ [1] ++ [1, 0] ++ [1, 0] ++ [65]
  ∧ RawResponse.to_bytes (RawResponse.from_string (List.replicate 16 0) 1 [65])
      ≠ responseWireSpec (List.replicate 16 0) true [65] := by
  decide

/-- C9: with reliability on and no duplicate-injection rolls, however many
consecutive receive timeouts occur, `send` performs exactly ONE transmission
and never exits (the inner receive loop has no `break` on timeout, so the
retry loop never advances and the MAX_RETRIES timeout error is never
returned). -/
theorem c9_send_never_retries_on_timeouts (request_id : List Nat) (n : Nat) :
    clientSend request_id (fun _ => false) (List.replicate n .timeout) = (1, none) := by
  have h : ∀ m, clientRecvLoop request_id (List.replicate m RecvEvent.timeout) = none := by
    intro m
    induction m with
    | zero => rfl
    | succ k ih => simpa [List.replicate_succ, clientRecvLoop] using ih
  have hstep : clientSend request_id (fun _ => false) (List.replicate n .timeout)
      = (1, clientRecvLoop request_id (List.replicate n .timeout)) := rfl
  rw [hstep, h n]

/-- C10: handling an availability request (known or unknown facility) leaves
the dispatcher state - every facility's bookings and the
monitoring-subscription list - exactly as it was. -/
theorem c10_availability_preserves_state (st : HState) (now : Nat)
    (fresh_booking_id fresh_response_id : List Nat) (id : List Nat)
    (a : AvailabilityRequest) (source_addr : Addr) :
    (handleMessage st now fresh_booking_id fresh_response_id
      ⟨id, .availability a⟩ source_addr).1 = st := rfl

end DistBooking
